import Mathlib

/-!
Verification development for the `go-isy` repository (packages `isy` and
`isyns`).  The definitions below are a shallow embedding of the Go source:
Go strings are modelled as Lean `String`s (operated on through their
character lists; the inputs of interest are ASCII, where Go's byte
indexing and the character indexing used here coincide), `url.Values` as
association lists from keys to value lists, and Go maps as association
lists with overwriting insertion.  Outbound HTTP activity is modelled by
returning the list of issued calls together with a result that depends on
an explicitly supplied transport outcome.
-/

namespace GoIsy

/-! ## Basic character/string helpers (Go `strings` / `strconv`) -/

/-- Digit character to its numeric value. -/
def digitVal (c : Char) : Nat := c.toNat - '0'.toNat

/-- Value of a decimal digit string (most significant first). -/
def digitsVal (l : List Char) : Nat :=
  l.foldl (fun acc c => acc * 10 + digitVal c) 0

/-- `strconv.Atoi`: optional sign, then a nonempty run of decimal digits,
with the result required to fit in a signed 64-bit integer (Go `int` on
64-bit platforms); every other input yields an error (`none`). -/
def atoiChars (l : List Char) : Option Int :=
  match l with
  | [] => none
  | c :: rest =>
    let (neg, ds) :=
      if c = '-' then (true, rest)
      else if c = '+' then (false, rest)
      else (false, c :: rest)
    if ds = [] then none
    else if ¬ ds.all Char.isDigit then none
    else
      let n : Int := (if neg then -(digitsVal ds : Int) else (digitsVal ds : Int))
      if n < -(2 ^ 63) ∨ n > 2 ^ 63 - 1 then none else some n

/-- `strconv.Atoi` on a `String`. -/
def atoi (s : String) : Option Int := atoiChars s.data

/-- Index of the first occurrence of `need` in `hay` (`strings.Index`),
`none` standing for Go's `-1`. -/
def firstIndexOf : List Char → List Char → Option Nat
  | hay, need =>
    match hay with
    | [] => if need = [] then some 0 else none
    | _ :: t =>
      if need.isPrefixOf hay then some 0
      else (firstIndexOf t need).map (· + 1)

/-- `strings.Contains`. -/
def containsSub (hay need : List Char) : Bool :=
  (firstIndexOf hay need).isSome

/-! ## Data model

The types `isy.UOM` and `isyns.CommandParam` are referenced by the code in
`src` but defined in parts of the repository that are not included there,
so they are modelled from the spec. -/

/-- Modelled from the spec: `isy.UOM`, a unit-of-measure — "integer code
or an explicit \"unknown\" sentinel" (`isy.UOMUnknown`).  A Go integer
conversion `isy.UOM(n)` is modelled as `UOM.code n`. -/
inductive UOM where
  | unknown : UOM
  | code (n : Int) : UOM
deriving DecidableEq, Repr

/-- Modelled from the spec: `isyns.CommandParam` — "{value: string
(protocol-defined textual encoding), unit-of-measure: integer code or an
explicit \"unknown\" sentinel}". -/
structure CommandParam where
  Value : String
  uom : UOM
deriving DecidableEq, Repr

/-- A decoded query string (`url.Values`): keys with their value lists. -/
abbrev Query : Type := List (String × List String)

/-- `url.Values.Get`: first value associated with the key, or `""`. -/
def queryGet (q : Query) (k : String) : String :=
  match q.find? (fun kv => kv.1 == k) with
  | some (_, v :: _) => v
  | _ => ""

/-! ## `Server.makeCommandParams` (and `makeCommonReq`) -/

/-- The per-key name/unit decoding inside the loop body of
`Server.makeCommandParams`: split at the first occurrence of `".uom"`;
if the remainder parses with `strconv.Atoi`, the name is the part before
the split and the unit the parsed integer; otherwise the whole key is the
name and the unit is unknown. -/
def makeCommandParamKey (k : String) : String × UOM :=
  match firstIndexOf k.data ".uom".data with
  | none => (k, UOM.unknown)
  | some splitPos =>
    let namePrefix : String := ⟨k.data.take splitPos⟩
    let uomStr : String := ⟨k.data.drop (splitPos + 4)⟩
    match atoi uomStr with
    | none => (k, UOM.unknown)
    | some unit => (namePrefix, UOM.code unit)

/-- Setting a key in a Go map, modelled on association lists: any previous
binding of the key is dropped and the new binding appended. -/
def mapSet (m : List (String × CommandParam)) (n : String) (p : CommandParam) :
    List (String × CommandParam) :=
  m.filter (fun kv => kv.1 ≠ n) ++ [(n, p)]

/-- Lookup in the modelled Go map. -/
def mapGet (m : List (String × CommandParam)) (n : String) : Option CommandParam :=
  (m.find? (fun kv => kv.1 == n)).map (·.2)

/-- `Server.makeCommandParams`: decode the query into command parameters.
The key `requestId` and keys with no values are skipped; every other key
contributes its first value under the decoded name and unit. -/
def makeCommandParams (q : Query) : List (String × CommandParam) :=
  q.foldl
    (fun ret kv =>
      if kv.1 = "requestId" then ret
      else
        match kv.2 with
        | [] => ret
        | v :: _ =>
          let nu := makeCommandParamKey kv.1
          mapSet ret nu.1 ⟨v, nu.2⟩)
    []

/-- `Server.makeCommonReq`: the correlation id is the `requestId` query
value (first value, or `""`). -/
def makeCommonReqID (q : Query) : String := queryGet q "requestId"

/-! ## Address namespacer

`Server.formatAddr` / `Server.parseAddr` and the identical
`nsClient.FormatAddr` / `nsClient.ParseAddr`, parameterized by the
configured address prefix (`s.addrPrefix` / `c.AddrPrefix`). -/

/-- `formatAddr` / `FormatAddr`: prepend the profile prefix. -/
def formatAddr (pre base : String) : String := pre ++ base

/-- `parseAddr` / `ParseAddr`: strip the profile prefix when present;
a value without the expected prefix is returned unchanged. -/
def parseAddr (pre given : String) : String :=
  if pre.data.isPrefixOf given.data then ⟨given.data.drop pre.data.length⟩ else given

/-- `fmt.Sprintf("n%03d_", profileNum)`: the address prefix computed in
`NewServer` (profile numbers are the nonnegative `profileNum` argument). -/
def addrPrefixFor (profileNum : Nat) : String :=
  let s := toString profileNum
  "n" ++ ⟨List.replicate (3 - s.length) '0'⟩ ++ s ++ "_"

/-! ## Route table (gorilla/mux router) -/

/-- The names given to the routes in the two `init` route tables. -/
inductive RouteName where
  | install | nodeQuery | nodeStatus | addAllNodes | addNode | removeNode
  | renameNode | enableNode | disableNode | nodeCommand | nodeCommandValue
  | nodeCommandValueUnit
deriving DecidableEq, Repr

/-- One segment of a path template: a literal or a `{variable}`. -/
inductive Seg where
  | lit (s : String)
  | var (name : String)
deriving DecidableEq, Repr

/-- Matched path variables (gorilla/mux `match.Vars`). -/
abbrev Vars : Type := List (String × String)

/-- Go map access `vars[name]` with the zero value `""` for a missing key. -/
def varGet (vs : Vars) (name : String) : String :=
  match vs.find? (fun kv => kv.1 == name) with
  | some kv => kv.2
  | none => ""

/-- Matching one template against the path segments: literals must be
equal, a `{variable}` matches exactly one nonempty segment. -/
def matchSegs : List Seg → List String → Option Vars
  | [], [] => some []
  | Seg.lit s :: t, x :: xs => if x = s then matchSegs t xs else none
  | Seg.var n :: t, x :: xs =>
    if x = "" then none else (matchSegs t xs).map (fun vs => (n, x) :: vs)
  | _, _ => none

/-- Split a URL path on `/` (the leading slash produces no segment). -/
def splitPathAux : List Char → List Char → List String
  | [], acc => [⟨acc.reverse⟩]
  | c :: rest, acc =>
    if c = '/' then (⟨acc.reverse⟩ : String) :: splitPathAux rest []
    else splitPathAux rest (c :: acc)

/-- Path string to segments, e.g. `"/a/b"` to `["a", "b"]`. -/
def splitPath (p : String) : List String :=
  match p.data with
  | '/' :: rest => splitPathAux rest []
  | l => splitPathAux l []

/-- The route table registered in `init` of the `isyns` server found in
`src/unnamed/part_002` (paths under `/ns/`). -/
def routesNS : List (RouteName × List Seg) :=
  [ (RouteName.install, [Seg.lit "ns", Seg.lit "install", Seg.var "profileNum"]),
    (RouteName.nodeQuery, [Seg.lit "ns", Seg.lit "nodes", Seg.var "nodeAddr", Seg.lit "query"]),
    (RouteName.nodeStatus, [Seg.lit "ns", Seg.lit "nodes", Seg.var "nodeAddr", Seg.lit "status"]),
    (RouteName.addAllNodes, [Seg.lit "ns", Seg.lit "add", Seg.lit "nodes"]),
    (RouteName.addNode,
      [Seg.lit "ns", Seg.lit "nodes", Seg.var "nodeAddr", Seg.lit "report", Seg.lit "add",
        Seg.var "nodeDefId"]),
    (RouteName.removeNode,
      [Seg.lit "ns", Seg.lit "nodes", Seg.var "nodeAddr", Seg.lit "report", Seg.lit "remove"]),
    (RouteName.renameNode,
      [Seg.lit "ns", Seg.lit "nodes", Seg.var "nodeAddr", Seg.lit "report", Seg.lit "rename"]),
    (RouteName.enableNode,
      [Seg.lit "ns", Seg.lit "nodes", Seg.var "nodeAddr", Seg.lit "report", Seg.lit "enable"]),
    (RouteName.disableNode,
      [Seg.lit "ns", Seg.lit "nodes", Seg.var "nodeAddr", Seg.lit "report", Seg.lit "disable"]),
    (RouteName.nodeCommand,
      [Seg.lit "ns", Seg.lit "nodes", Seg.var "nodeAddr", Seg.lit "cmd", Seg.var "command"]),
    (RouteName.nodeCommandValue,
      [Seg.lit "ns", Seg.lit "nodes", Seg.var "nodeAddr", Seg.lit "cmd", Seg.var "command",
        Seg.var "value"]),
    (RouteName.nodeCommandValueUnit,
      [Seg.lit "ns", Seg.lit "nodes", Seg.var "nodeAddr", Seg.lit "cmd", Seg.var "command",
        Seg.var "value", Seg.var "unit"]) ]

/-- The route table registered in `init` of `src/isyns/server.go`
(identical shapes, without the leading `ns` segment). -/
def routesPlain : List (RouteName × List Seg) :=
  [ (RouteName.install, [Seg.lit "install", Seg.var "profileNum"]),
    (RouteName.nodeQuery, [Seg.lit "nodes", Seg.var "nodeAddr", Seg.lit "query"]),
    (RouteName.nodeStatus, [Seg.lit "nodes", Seg.var "nodeAddr", Seg.lit "status"]),
    (RouteName.addAllNodes, [Seg.lit "add", Seg.lit "nodes"]),
    (RouteName.addNode,
      [Seg.lit "nodes", Seg.var "nodeAddr", Seg.lit "report", Seg.lit "add",
        Seg.var "nodeDefId"]),
    (RouteName.removeNode,
      [Seg.lit "nodes", Seg.var "nodeAddr", Seg.lit "report", Seg.lit "remove"]),
    (RouteName.renameNode,
      [Seg.lit "nodes", Seg.var "nodeAddr", Seg.lit "report", Seg.lit "rename"]),
    (RouteName.enableNode,
      [Seg.lit "nodes", Seg.var "nodeAddr", Seg.lit "report", Seg.lit "enable"]),
    (RouteName.disableNode,
      [Seg.lit "nodes", Seg.var "nodeAddr", Seg.lit "report", Seg.lit "disable"]),
    (RouteName.nodeCommand,
      [Seg.lit "nodes", Seg.var "nodeAddr", Seg.lit "cmd", Seg.var "command"]),
    (RouteName.nodeCommandValue,
      [Seg.lit "nodes", Seg.var "nodeAddr", Seg.lit "cmd", Seg.var "command", Seg.var "value"]),
    (RouteName.nodeCommandValueUnit,
      [Seg.lit "nodes", Seg.var "nodeAddr", Seg.lit "cmd", Seg.var "command", Seg.var "value",
        Seg.var "unit"]) ]

/-- `router.Match`: the first route whose template matches the path. -/
def routerMatch (table : List (RouteName × List Seg)) (segs : List String) :
    Option (RouteName × Vars) :=
  match table with
  | [] => none
  | (name, tmpl) :: rest =>
    match matchSegs tmpl segs with
    | some vs => some (name, vs)
    | none => routerMatch rest segs

/-! ## Requests and the HTTP handler -/

/-- The embedded `request` struct: the correlation id (`requestId` query
value).  The `server` back-reference is represented by the completion
function `requestComplete` defined with the outbound client below. -/
structure ReqMeta where
  id : String
deriving DecidableEq, Repr

/-- The `Request` variants of the `isyns` package (tag plus the fields of
the corresponding Go struct). -/
inductive RequestVal where
  | install (meta : ReqMeta)
  | nodeQuery (meta : ReqMeta) (nodeAddr : String)
  | nodeStatusValues (meta : ReqMeta) (nodeAddr : String)
  | addAllNodes (meta : ReqMeta)
  | addNode (meta : ReqMeta) (nodeAddr nodeDefId primaryAddr name : String)
  | removeNode (meta : ReqMeta) (nodeAddr : String)
  | renameNode (meta : ReqMeta) (nodeAddr name : String)
  | enableNode (meta : ReqMeta) (nodeAddr : String) (enabled : Bool)
  | command (meta : ReqMeta) (nodeAddr cmd : String) (param : Option CommandParam)
      (params : List (String × CommandParam))
deriving DecidableEq, Repr

/-- The server state relevant to request handling, over an abstract digest
type `H`: the configured username, the stored password digest
(`sha256.Sum256` of the configured password) and the address prefix. -/
structure ServerModel (H : Type) where
  username : String
  passwordSHA256 : H
  addrPrefix : String

/-- An inbound HTTP request as seen by `Server.handler`: the decoded Basic
Auth header (`none` when missing or malformed), the URL path and the
query. -/
structure HTTPReq where
  basicAuth : Option (String × String)
  path : String
  query : Query

/-- The `switch match.Route.GetName()` body of `Server.handler`
(`src/unnamed/part_002` version): build the `Request` for a matched
route, translating every address through `parseAddr`.  The result is
`none` exactly when the path-embedded unit of a `nodeCommandValueUnit`
route fails `strconv.Atoi` (`req` stays nil in the Go code). -/
def decodeRoute (s : ServerModel H) (q : Query) (name : RouteName) (vars : Vars) :
    Option RequestVal :=
  let meta : ReqMeta := ⟨makeCommonReqID q⟩
  match name with
  | RouteName.install => some (RequestVal.install meta)
  | RouteName.nodeQuery =>
    some (RequestVal.nodeQuery meta (parseAddr s.addrPrefix (varGet vars "nodeAddr")))
  | RouteName.nodeStatus =>
    some (RequestVal.nodeStatusValues meta (parseAddr s.addrPrefix (varGet vars "nodeAddr")))
  | RouteName.addAllNodes => some (RequestVal.addAllNodes meta)
  | RouteName.addNode =>
    some (RequestVal.addNode meta (parseAddr s.addrPrefix (varGet vars "nodeAddr"))
      (varGet vars "nodeDefId") (parseAddr s.addrPrefix (queryGet q "primary"))
      (queryGet q "name"))
  | RouteName.removeNode =>
    some (RequestVal.removeNode meta (parseAddr s.addrPrefix (varGet vars "nodeAddr")))
  | RouteName.renameNode =>
    some (RequestVal.renameNode meta (parseAddr s.addrPrefix (varGet vars "nodeAddr"))
      (queryGet q "name"))
  | RouteName.enableNode =>
    some (RequestVal.enableNode meta (parseAddr s.addrPrefix (varGet vars "nodeAddr")) true)
  | RouteName.disableNode =>
    some (RequestVal.enableNode meta (parseAddr s.addrPrefix (varGet vars "nodeAddr")) false)
  | RouteName.nodeCommand =>
    some (RequestVal.command meta (parseAddr s.addrPrefix (varGet vars "nodeAddr"))
      (varGet vars "command") none (makeCommandParams q))
  | RouteName.nodeCommandValue =>
    some (RequestVal.command meta (parseAddr s.addrPrefix (varGet vars "nodeAddr"))
      (varGet vars "command") (some ⟨varGet vars "value", UOM.unknown⟩) (makeCommandParams q))
  | RouteName.nodeCommandValueUnit =>
    match atoi (varGet vars "unit") with
    | none => none
    | some unit =>
      some (RequestVal.command meta (parseAddr s.addrPrefix (varGet vars "nodeAddr"))
        (varGet vars "command") (some ⟨varGet vars "value", UOM.code unit⟩)
        (makeCommandParams q))

/-- The same switch body in the `src/isyns/server.go` version: identical
except that node addresses are taken verbatim from the path variables and
query (no address namespacing). -/
def decodeRoutePlain (q : Query) (name : RouteName) (vars : Vars) : Option RequestVal :=
  let meta : ReqMeta := ⟨makeCommonReqID q⟩
  match name with
  | RouteName.install => some (RequestVal.install meta)
  | RouteName.nodeQuery => some (RequestVal.nodeQuery meta (varGet vars "nodeAddr"))
  | RouteName.nodeStatus => some (RequestVal.nodeStatusValues meta (varGet vars "nodeAddr"))
  | RouteName.addAllNodes => some (RequestVal.addAllNodes meta)
  | RouteName.addNode =>
    some (RequestVal.addNode meta (varGet vars "nodeAddr") (varGet vars "nodeDefId")
      (queryGet q "primary") (queryGet q "name"))
  | RouteName.removeNode => some (RequestVal.removeNode meta (varGet vars "nodeAddr"))
  | RouteName.renameNode =>
    some (RequestVal.renameNode meta (varGet vars "nodeAddr") (queryGet q "name"))
  | RouteName.enableNode => some (RequestVal.enableNode meta (varGet vars "nodeAddr") true)
  | RouteName.disableNode => some (RequestVal.enableNode meta (varGet vars "nodeAddr") false)
  | RouteName.nodeCommand =>
    some (RequestVal.command meta (varGet vars "nodeAddr") (varGet vars "command") none
      (makeCommandParams q))
  | RouteName.nodeCommandValue =>
    some (RequestVal.command meta (varGet vars "nodeAddr") (varGet vars "command")
      (some ⟨varGet vars "value", UOM.unknown⟩) (makeCommandParams q))
  | RouteName.nodeCommandValueUnit =>
    match atoi (varGet vars "unit") with
    | none => none
    | some unit =>
      some (RequestVal.command meta (varGet vars "nodeAddr") (varGet vars "command")
        (some ⟨varGet vars "value", UOM.code unit⟩) (makeCommandParams q))

/-- Observable actions of `Server.handler`, in the order the Go code
performs them: `http.Error` responses, the `w.WriteHeader` success
acknowledgement, and the send on the `rawReqs` channel. -/
inductive HEvent where
  | wroteError (status : Nat) (msg : String)
  | wroteHeader (status : Nat)
  | chanSend (req : RequestVal)
deriving DecidableEq, Repr

/-- `Server.handler` (`src/unnamed/part_002` version), parameterized by
the digest function `hash` standing for `sha256.Sum256`: check Basic Auth
(username, then constant-time digest comparison), match the route table,
decode the request; on success write the `204 No Content` acknowledgement
and only then send the decoded request on the channel. -/
def handler [DecidableEq H] (hash : String → H) (s : ServerModel H) (r : HTTPReq) :
    List HEvent :=
  match r.basicAuth with
  | none => [HEvent.wroteError 401 "Unauthorized"]
  | some (username, password) =>
    if username ≠ s.username then [HEvent.wroteError 401 "Unauthorized"]
    else if hash password ≠ s.passwordSHA256 then [HEvent.wroteError 401 "Unauthorized"]
    else
      match routerMatch routesNS (splitPath r.path) with
      | none => [HEvent.wroteError 404 "Not Found"]
      | some (name, vars) =>
        match decodeRoute s r.query name vars with
        | none => [HEvent.wroteError 404 "Not Found"]
        | some req => [HEvent.wroteHeader 204, HEvent.chanSend req]

/-- `Server.handler` as in `src/isyns/server.go`: same structure over the
plain route table and the namespacing-free decoder. -/
def handlerPlain [DecidableEq H] (hash : String → H) (s : ServerModel H) (r : HTTPReq) :
    List HEvent :=
  match r.basicAuth with
  | none => [HEvent.wroteError 401 "Unauthorized"]
  | some (username, password) =>
    if username ≠ s.username then [HEvent.wroteError 401 "Unauthorized"]
    else if hash password ≠ s.passwordSHA256 then [HEvent.wroteError 401 "Unauthorized"]
    else
      match routerMatch routesPlain (splitPath r.path) with
      | none => [HEvent.wroteError 404 "Not Found"]
      | some (name, vars) =>
        match decodeRoutePlain r.query name vars with
        | none => [HEvent.wroteError 404 "Not Found"]
        | some req => [HEvent.wroteHeader 204, HEvent.chanSend req]

/-- A concrete server configuration used for witnesses and
counterexamples: digests are modelled by the identity function on
passwords. -/
def demoServer : ServerModel String :=
  { username := "isy", passwordSHA256 := "secret", addrPrefix := "n001_" }

/-! ## The hand-off channel created by `NewServer` -/

/-- A Go channel, abstracted to its buffer capacity. -/
structure GoChannel where
  capacity : Nat
deriving DecidableEq, Repr

/-- `s.rawReqs = make(chan Request)` in `NewServer`: an unbuffered
channel. -/
def newServerRawReqs : GoChannel := ⟨0⟩

/-- `s.Requests = s.rawReqs`: the public read-only channel is the very
same channel. -/
def newServerRequests : GoChannel := newServerRawReqs

/-! ## Outbound client (`nsClient`) -/

/-- The outcome of the one `http.DefaultClient.Do` call made by
`nsClient.Request`: a transport failure (Go `err != nil`, with a nil
response) or a response with its status code and status text. -/
inductive TransportOutcome where
  | failure (msg : String)
  | response (status : Nat) (statusText : String)
deriving DecidableEq, Repr

/-- What an outbound call does from the caller's point of view: return
normally, return an error value, or panic. -/
inductive CallResult where
  | ok
  | err (msg : String)
  | panics
deriving DecidableEq, Repr

/-- `nsClient.Request` as written in `src/unnamed/part_002`: the
`log.Printf` line reads `resp.StatusCode` *before* the `err != nil` check,
so a transport failure (where `resp` is nil) dereferences a nil pointer
and panics; otherwise a status `>= 400` is returned as an error and any
other status as success. -/
def nsClientRequest (o : TransportOutcome) : CallResult :=
  match o with
  | TransportOutcome.failure _ => CallResult.panics
  | TransportOutcome.response status statusText =>
    if status ≥ 400 then CallResult.err statusText else CallResult.ok

/-- `nsClient.Request` as written in `src/isyns/server.go`: no logging;
the transport error is checked first and returned to the caller. -/
def nsClientRequestPlain (o : TransportOutcome) : CallResult :=
  match o with
  | TransportOutcome.failure msg => CallResult.err msg
  | TransportOutcome.response status statusText =>
    if status ≥ 400 then CallResult.err statusText else CallResult.ok

/-! URL construction (`nsClient.MakeURL`): `url.PathEscape` each part,
`path.Join` them, and resolve against the base service URL.  The issued
call is identified below by the joined path relative to the base URL.
The escaping is modelled byte-for-byte for ASCII strings. -/

/-- Upper-case hexadecimal digit. -/
def hexDigit (n : Nat) : Char :=
  if n < 10 then Char.ofNat ('0'.toNat + n) else Char.ofNat ('A'.toNat + n - 10)

/-- `url.shouldEscape` in path-segment mode: keep alphanumerics,
`-_.~` and `$&+:=@`; escape `/;,?` and everything else. -/
def shouldEscapeSeg (c : Char) : Bool :=
  ¬ (c.isAlphanum ∨ c ∈ ['-', '_', '.', '~', '$', '&', '+', ':', '=', '@'])

/-- `url.PathEscape` (ASCII). -/
def pathEscape (s : String) : String :=
  ⟨s.data.foldr
    (fun c acc =>
      if shouldEscapeSeg c then
        '%' :: hexDigit (c.toNat / 16) :: hexDigit (c.toNat % 16) :: acc
      else c :: acc)
    []⟩

/-- One step of `path.Clean`'s element processing, with the output kept in
reverse: empty and `.` elements are dropped; `..` pops the previous
element when possible (at the root it is dropped, on a relative path with
nothing to pop it is kept). -/
def cleanStepRev (rooted : Bool) (acc : List String) (s : String) : List String :=
  if s = "" ∨ s = "." then acc
  else if s = ".." then
    match acc with
    | [] => if rooted then [] else [".."]
    | a :: rest => if a = ".." then s :: acc else rest
  else s :: acc

/-- Split on a separator character. -/
def splitOnCharAux (sep : Char) : List Char → List Char → List String
  | [], acc => [⟨acc.reverse⟩]
  | c :: rest, acc =>
    if c = sep then (⟨acc.reverse⟩ : String) :: splitOnCharAux sep rest []
    else splitOnCharAux sep rest (c :: acc)

/-- `path.Clean`. -/
def pathClean (p : String) : String :=
  if p = "" then "."
  else
    let rooted := p.data.head? = some '/'
    let out := ((splitOnCharAux '/' p.data []).foldl (cleanStepRev rooted) []).reverse
    let core := String.intercalate "/" out
    if rooted then "/" ++ core
    else if core = "" then "." else core

/-- `path.Join`: drop leading empty elements, join the rest with `/` and
clean; all-empty input gives `""`. -/
def pathJoin (elems : List String) : String :=
  match elems.dropWhile (· == "") with
  | [] => ""
  | es => pathClean (String.intercalate "/" es)

/-- `nsClient.MakeURL`, identified by the path relative to the base
service URL: percent-escape every part and join. -/
def makeURLPath (parts : List String) : String :=
  pathJoin (parts.map pathEscape)

/-- The relative URL built by `nsClient.ReportRequestStatus`. -/
def reportRequestStatusPath (id : String) (success : Bool) : String :=
  if success then makeURLPath ["report", "status", id, "success"]
  else makeURLPath ["report", "status", id, "fail"]

/-- `nsClient.ReportRequestStatus`: one outbound call to the
success/fail reporting URL, whose result is that of `nsClient.Request`.
The first component lists the relative URLs of the issued calls. -/
def reportRequestStatus (id : String) (success : Bool) (o : TransportOutcome) :
    List String × CallResult :=
  ([reportRequestStatusPath id success], nsClientRequest o)

/-- `request.Complete`: with an empty correlation id, return nil without
any outbound call; otherwise report the status via
`nsClient.ReportRequestStatus`. -/
def requestComplete (meta : ReqMeta) (success : Bool) (o : TransportOutcome) :
    List String × CallResult :=
  if meta.id = "" then ([], CallResult.ok)
  else reportRequestStatus meta.id success o

/-- An outbound URL with query parameters (`url.Values.Encode` emits keys
sorted, so `name` precedes `primary`). -/
structure OutURL where
  path : String
  query : List (String × String)
deriving DecidableEq, Repr

/-- The URL built by `nsClient.AddNode`: the address (and, when nonempty,
the primary address) is namespaced with `FormatAddr`; `primary` and
`name` appear as query parameters only when nonempty. -/
def addNodeURL (pre addr defId primaryAddr name : String) : OutURL :=
  let addr := formatAddr pre addr
  let primaryAddr := if primaryAddr ≠ "" then formatAddr pre primaryAddr else primaryAddr
  { path := makeURLPath ["nodes", addr, "add", defId],
    query :=
      (if name ≠ "" then [("name", name)] else []) ++
      (if primaryAddr ≠ "" then [("primary", primaryAddr)] else []) }

/-- `nsClient.AddNode` (and `Server.AddNode`, which simply delegates):
one outbound call whose result is that of `nsClient.Request`. -/
def addNode (pre addr defId primaryAddr name : String) (o : TransportOutcome) :
    List OutURL × CallResult :=
  ([addNodeURL pre addr defId primaryAddr name], nsClientRequest o)

/-! ## Rendezvous semantics of the hand-off

`Server.handler` ends, for every recognized request, with the two-step
program "write the `204` acknowledgement; send on `rawReqs`".  The channel
has capacity `0` (`newServerRawReqs`), so, by Go's semantics of an
unbuffered channel, the send completes only jointly with a consumer
receive.  The small-step system below models any number of such handler
goroutines (indexed by `Nat`): an `ack` step performs the header write,
and a `handoff` step is the rendezvous — the simultaneous completion of
the producer's send and one consumer's receive. -/

/-- Program counter of one handler goroutine after decoding succeeded. -/
inductive HPc where
  | beforeAck | beforeSend | done
deriving DecidableEq, Repr

/-- Events observable in an execution: the acknowledgement of call `i`,
and the rendezvous delivering call `i`'s request to a consumer. -/
inductive TEvent where
  | ack (i : Nat)
  | handoff (i : Nat)
deriving DecidableEq, Repr

/-- A system state: the program counter of every handler, plus the event
trace so far. -/
abbrev CState : Type := (Nat → HPc) × List TEvent

/-- One interleaving step.  A handler may write its acknowledgement when
it has not yet done so; a handler blocked on the unbuffered send advances
only through the rendezvous event, which also is the unique consumer
receive of that request. -/
inductive HandStep : CState → CState → Prop where
  | ack (pcs : Nat → HPc) (tr : List TEvent) (i : Nat) :
      pcs i = HPc.beforeAck →
      HandStep (pcs, tr) (Function.update pcs i HPc.beforeSend, tr ++ [TEvent.ack i])
  | handoff (pcs : Nat → HPc) (tr : List TEvent) (i : Nat) :
      pcs i = HPc.beforeSend →
      HandStep (pcs, tr) (Function.update pcs i HPc.done, tr ++ [TEvent.handoff i])

/-- The initial state: every in-flight handler is about to acknowledge,
nothing has happened yet. -/
def initCState : CState := (fun _ => HPc.beforeAck, [])

/-- States reachable by interleaving handler steps and rendezvous. -/
def ReachableC (st : CState) : Prop := Relation.ReflTransGen HandStep initCState st

/-- Number of acknowledgements call `i` has performed in a given pc. -/
def ackCount : HPc → Nat
  | HPc.beforeAck => 0
  | _ => 1

/-- Number of hand-offs call `i` has performed in a given pc. -/
def hoCount : HPc → Nat
  | HPc.done => 1
  | _ => 0

/-- The execution invariant: the trace counts of each call's events agree
with its program counter, and a call's hand-off never precedes (or
coincides with) its acknowledgement in the trace. -/
def CInv (st : CState) : Prop :=
  ∀ i, st.2.count (TEvent.ack i) = ackCount (st.1 i) ∧
    st.2.count (TEvent.handoff i) = hoCount (st.1 i) ∧
    ∀ j k : Nat, st.2[j]? = some (TEvent.handoff i) → st.2[k]? = some (TEvent.ack i) → k < j

/-! ## Statements of spec-side decoding rules -/

/-- The four characters of the unit suffix marker. -/
def uomNeedle : List Char := ['.', 'u', 'o', 'm']

/-- The claim's unit-suffix form, followed verbatim: a decomposition
`key = name ++ ".uom" ++ digits` with a nonempty all-digit suffix, split
at the first occurrence that fits the form; yields the name and the value
of the digit sequence. -/
def specUomSplit : List Char → Option (List Char × Nat)
  | [] => none
  | c :: rest =>
    if uomNeedle.isPrefixOf (c :: rest) ∧ rest.drop 3 ≠ [] ∧ (rest.drop 3).all Char.isDigit then
      some ([], digitsVal (rest.drop 3))
    else (specUomSplit rest).map (fun p => (c :: p.1, p.2))

/-- The claim's per-key decoding rule for a query `q`, as stated: a key of
the form `name.uom<digits>` yields a parameter `name` with the digit
sequence as unit; any other key yields a parameter under the full key
with the unknown unit; either way the parameter's value is the key's
first value. -/
def c1KeyRuleB (q : Query) (kv : String × List String) : Bool :=
  match specUomSplit kv.1.data with
  | some p =>
    mapGet (makeCommandParams q) ⟨p.1⟩ == some ⟨kv.2.headD "", UOM.code (p.2 : Int)⟩
  | none => mapGet (makeCommandParams q) kv.1 == some ⟨kv.2.headD "", UOM.unknown⟩

/-- The unit-parsing sentence of the claim, quantified as stated over
inbound command calls: every key of the query other than `requestId` with
at least one value decodes per `c1KeyRuleB`. -/
def C1Claim : Prop :=
  ∀ q : Query, ∀ kv ∈ q, kv.1 ≠ "requestId" → kv.2 ≠ [] → c1KeyRuleB q kv = true

/-- Number of channel sends in a handler trace. -/
def sendCount (tr : List HEvent) : Nat :=
  tr.countP fun e =>
    match e with
    | HEvent.chanSend _ => true
    | _ => false

/-- A two-step execution of one handler in the rendezvous semantics,
used to exercise the reachability facts. -/
def demoExecState : CState :=
  (Function.update (Function.update (fun _ => HPc.beforeAck) 0 HPc.beforeSend) 0 HPc.done,
    [TEvent.ack 0, TEvent.handoff 0])

/-- Indexing into a list extended by one element. -/
theorem getElem?_append_one {α : Type} {l : List α} {e x : α} {j : Nat}
    (h : (l ++ [e])[j]? = some x) : l[j]? = some x ∨ (j = l.length ∧ x = e) := by
  rcases Nat.lt_trichotomy j l.length with hlt | heq | hgt
  · left; rwa [List.getElem?_append_left hlt] at h
  · right
    subst heq
    rw [List.getElem?_concat_length] at h
    exact ⟨rfl, (Option.some.injEq _ _ ▸ h).symm⟩
  · exfalso
    rw [List.getElem?_eq_none (by simpa using hgt)] at h
    exact Option.noConfusion h

/-- The invariant holds initially. -/
theorem cinv_init : CInv initCState := by
  intro i
  refine ⟨rfl, rfl, ?_⟩
  intro j k hj _
  simp [initCState] at hj

/-- The invariant is preserved by every step. -/
theorem cinv_step {st st' : CState} (hst : CInv st) (h : HandStep st st') : CInv st' := by
  cases h with
  | ack pcs tr i hpc =>
    intro i'
    obtain ⟨ha, hh, hord⟩ := hst i'
    dsimp only at ha hh hord ⊢
    by_cases hii : i' = i
    · subst hii
      refine ⟨?_, ?_, ?_⟩
      · rw [List.count_append, Function.update_same, ha, hpc, List.count_singleton]
        simp [ackCount]
      · rw [List.count_append, Function.update_same, hh, hpc, List.count_singleton]
        simp [hoCount]
      · intro j k hj hk
        rcases getElem?_append_one hj with hj' | ⟨_, hje⟩
        · exfalso
          have hmem : TEvent.handoff i' ∈ tr := List.getElem?_mem hj'
          have : 0 < tr.count (TEvent.handoff i') := List.count_pos_iff.mpr hmem
          rw [hh, hpc] at this
          simp [hoCount] at this
        · exact absurd hje (by simp)
    · have hup : Function.update pcs i HPc.beforeSend i' = pcs i' :=
        Function.update_noteq hii _ _
      refine ⟨?_, ?_, ?_⟩
      · rw [List.count_append, hup, ha, List.count_singleton]
        simp only [beq_iff_eq, TEvent.ack.injEq]
        rw [if_neg (fun h => hii (Eq.symm h))]
        omega
      · rw [List.count_append, hup, hh, List.count_singleton]
        simp
      · intro j k hj hk
        rcases getElem?_append_one hj with hj' | ⟨_, hje⟩
        · rcases getElem?_append_one hk with hk' | ⟨_, hke⟩
          · exact hord j k hj' hk'
          · exact absurd hke (by simp [hii])
        · exact absurd hje (by simp)
  | handoff pcs tr i hpc =>
    intro i'
    obtain ⟨ha, hh, hord⟩ := hst i'
    dsimp only at ha hh hord ⊢
    by_cases hii : i' = i
    · subst hii
      refine ⟨?_, ?_, ?_⟩
      · rw [List.count_append, Function.update_same, ha, hpc, List.count_singleton]
        simp [ackCount]
      · rw [List.count_append, Function.update_same, hh, hpc, List.count_singleton]
        simp [hoCount]
      · intro j k hj hk
        rcases getElem?_append_one hk with hk' | ⟨_, hke⟩
        · rcases getElem?_append_one hj with hj' | ⟨hje, _⟩
          · exact hord j k hj' hk'
          · have : k < tr.length := (List.getElem?_eq_some.mp hk').1
            exact hje ▸ this
        · exact absurd hke (by simp)
    · have hup : Function.update pcs i HPc.done i' = pcs i' :=
        Function.update_noteq hii _ _
      refine ⟨?_, ?_, ?_⟩
      · rw [List.count_append, hup, ha, List.count_singleton]
        simp
      · rw [List.count_append, hup, hh, List.count_singleton]
        simp only [beq_iff_eq, TEvent.handoff.injEq]
        rw [if_neg (fun h => hii (Eq.symm h))]
        omega
      · intro j k hj hk
        rcases getElem?_append_one hj with hj' | ⟨_, hje⟩
        · rcases getElem?_append_one hk with hk' | ⟨_, hke⟩
          · exact hord j k hj' hk'
          · exact absurd hke (by simp)
        · exact absurd hje (by simp [hii])

/-- Every reachable state satisfies the invariant. -/
theorem cinv_reachable {st : CState} (h : ReachableC st) : CInv st := by
  induction h with
  | refl => exact cinv_init
  | tail _ hstep ih => exact cinv_step ih hstep

/-! ## Structure of the `.uom` key split -/

/-- Unfolding equation for `firstIndexOf` on a nonempty haystack. -/
theorem firstIndexOf_cons (c : Char) (t need : List Char) :
    firstIndexOf (c :: t) need =
      if need.isPrefixOf (c :: t) then some 0 else (firstIndexOf t need).map (· + 1) := rfl

/-- An occurrence in the tail is an occurrence in the whole. -/
theorem containsSub_cons {t need : List Char} (c : Char) (h : containsSub t need = true) :
    containsSub (c :: t) need = true := by
  unfold containsSub at h ⊢
  rw [firstIndexOf_cons]
  by_cases hp : need.isPrefixOf (c :: t)
  · rw [if_pos hp]; rfl
  · rw [if_neg hp]
    cases hfi : firstIndexOf t need with
    | none => rw [hfi] at h; exact Bool.noConfusion h
    | some v => rfl

/-- `".uom"` is not a prefix of `s ++ ".uom" ++ d` when the nonempty `s`
contains no `".uom"`: an occurrence cannot straddle the boundary. -/
theorem not_prefix_needle {s d : List Char} (hne : s ≠ [])
    (hno : containsSub s uomNeedle = false) :
    uomNeedle.isPrefixOf (s ++ '.' :: 'u' :: 'o' :: 'm' :: d) = false := by
  rcases s with _ | ⟨c1, _ | ⟨c2, _ | ⟨c3, _ | ⟨c4, t⟩⟩⟩⟩
  · exact absurd rfl hne
  · cases hp : uomNeedle.isPrefixOf ([c1] ++ '.' :: 'u' :: 'o' :: 'm' :: d) with
    | false => rfl
    | true =>
      exfalso
      simp only [uomNeedle, List.cons_append, List.nil_append, List.isPrefixOf,
        Bool.and_eq_true, beq_iff_eq] at hp
      exact absurd hp.2.1 (by decide)
  · cases hp : uomNeedle.isPrefixOf ([c1, c2] ++ '.' :: 'u' :: 'o' :: 'm' :: d) with
    | false => rfl
    | true =>
      exfalso
      simp only [uomNeedle, List.cons_append, List.nil_append, List.isPrefixOf,
        Bool.and_eq_true, beq_iff_eq] at hp
      exact absurd hp.2.2.1 (by decide)
  · cases hp : uomNeedle.isPrefixOf ([c1, c2, c3] ++ '.' :: 'u' :: 'o' :: 'm' :: d) with
    | false => rfl
    | true =>
      exfalso
      simp only [uomNeedle, List.cons_append, List.nil_append, List.isPrefixOf,
        Bool.and_eq_true, beq_iff_eq] at hp
      exact absurd hp.2.2.2.1 (by decide)
  · cases hp : uomNeedle.isPrefixOf ((c1 :: c2 :: c3 :: c4 :: t) ++ '.' :: 'u' :: 'o' :: 'm' :: d)
      with
    | false => rfl
    | true =>
      exfalso
      simp only [uomNeedle, List.cons_append, List.isPrefixOf, Bool.and_eq_true,
        beq_iff_eq] at hp
      obtain ⟨h1, h2, h3, h4, -⟩ := hp
      have hin : containsSub (c1 :: c2 :: c3 :: c4 :: t) uomNeedle = true := by
        unfold containsSub
        rw [firstIndexOf_cons, if_pos ?hpre]
        · rfl
        case hpre =>
          subst h1; subst h2; subst h3; subst h4
          simp [uomNeedle, List.isPrefixOf]
      rw [hin] at hno
      exact Bool.noConfusion hno

/-- When the name part contains no `".uom"`, the first occurrence of
`".uom"` in `name ++ ".uom" ++ d` is exactly at the boundary. -/
theorem firstIndexOf_boundary (nm d : List Char) (hno : containsSub nm uomNeedle = false) :
    firstIndexOf (nm ++ '.' :: 'u' :: 'o' :: 'm' :: d) uomNeedle = some nm.length := by
  induction nm with
  | nil =>
    rw [List.nil_append, firstIndexOf_cons, if_pos]
    · simp
    · simp [uomNeedle, List.isPrefixOf]
  | cons c t ih =>
    have hnoT : containsSub t uomNeedle = false := by
      cases hct : containsSub t uomNeedle with
      | false => rfl
      | true => rw [containsSub_cons c hct] at hno; exact Bool.noConfusion hno
    have hpf := not_prefix_needle (s := c :: t) (d := d) (by simp) hno
    rw [List.cons_append] at hpf
    rw [List.cons_append, firstIndexOf_cons, if_neg (by rw [hpf]; exact Bool.noConfusion),
      ih hnoT]
    rfl

/-- `strconv.Atoi` on a nonempty all-digit string within the 64-bit range
parses to the digit value. -/
theorem atoiChars_digits (d : List Char) (hne : d ≠ []) (hdig : d.all Char.isDigit = true)
    (hb : digitsVal d ≤ 2 ^ 63 - 1) : atoiChars d = some ((digitsVal d : Int)) := by
  rcases d with _ | ⟨c, rest⟩
  · exact absurd rfl hne
  · have hc : c.isDigit = true := by
      have := List.all_eq_true.mp hdig
      exact this c (List.mem_cons_self _ _)
    have hcm : ¬ c = '-' := by
      intro h; rw [h] at hc; exact absurd hc (by decide)
    have hcp : ¬ c = '+' := by
      intro h; rw [h] at hc; exact absurd hc (by decide)
    show (match (if c = '-' then (true, rest) else if c = '+' then (false, rest)
        else (false, c :: rest)) with
      | (neg, ds) =>
        if ds = [] then none
        else if ¬ ds.all Char.isDigit = true then none
        else
          let n : Int := if neg then -(digitsVal ds : Int) else (digitsVal ds : Int)
          if n < -(2 ^ 63) ∨ n > 2 ^ 63 - 1 then none else some n) =
      some ((digitsVal (c :: rest) : Int))
    rw [if_neg hcm, if_neg hcp]
    show (if c :: rest = [] then none
      else if ¬ (c :: rest).all Char.isDigit = true then none
      else
        let n : Int := (digitsVal (c :: rest) : Int)
        if n < -(2 ^ 63) ∨ n > 2 ^ 63 - 1 then none else some n) =
      some ((digitsVal (c :: rest) : Int))
    rw [if_neg (List.cons_ne_nil c rest)]
    rw [if_neg (by rw [hdig]; exact fun h => h rfl)]
    show (if (digitsVal (c :: rest) : Int) < -(2 ^ 63) ∨
        (digitsVal (c :: rest) : Int) > 2 ^ 63 - 1 then none
      else some ((digitsVal (c :: rest) : Int))) = some ((digitsVal (c :: rest) : Int))
    rw [if_neg]
    intro h
    rcases h with h | h
    · have : (0 : Int) ≤ (digitsVal (c :: rest) : Int) := Int.ofNat_nonneg _
      omega
    · have hcast : (digitsVal (c :: rest) : Int) ≤ (2 : Int) ^ 63 - 1 := by
        have h2 : (digitsVal (c :: rest) : Int) ≤ ((2 ^ 63 - 1 : Nat) : Int) :=
          Int.ofNat_le.mpr hb
        omega
      omega

/-- The per-key decoder on a well-formed unit-suffix key: with a
`.uom`-free name and a nonempty in-range digit suffix, the key splits
into the name and the parsed unit. -/
theorem makeCommandParamKey_uom_suffix (nm d : String)
    (hno : containsSub nm.data uomNeedle = false) (hne : d.data ≠ [])
    (hdig : d.data.all Char.isDigit = true) (hb : digitsVal d.data ≤ 2 ^ 63 - 1) :
    makeCommandParamKey (nm ++ ".uom" ++ d) = (nm, UOM.code (digitsVal d.data)) := by
  have hdata : (nm ++ ".uom" ++ d).data = nm.data ++ '.' :: 'u' :: 'o' :: 'm' :: d.data := by
    rw [String.data_append, String.data_append, List.append_assoc]
    rfl
  unfold makeCommandParamKey
  rw [hdata]
  rw [show (".uom" : String).data = uomNeedle from rfl]
  rw [firstIndexOf_boundary nm.data d.data hno]
  have htake : (nm.data ++ '.' :: 'u' :: 'o' :: 'm' :: d.data).take nm.data.length = nm.data :=
    List.take_left nm.data _
  have hdrop : (nm.data ++ '.' :: 'u' :: 'o' :: 'm' :: d.data).drop (nm.data.length + 4) =
      d.data := by
    rw [show nm.data ++ '.' :: 'u' :: 'o' :: 'm' :: d.data =
        (nm.data ++ uomNeedle) ++ d.data by simp [uomNeedle]]
    exact List.drop_left' (by simp [uomNeedle])
  show (let namePrefix : String := ⟨(nm.data ++ '.' :: 'u' :: 'o' :: 'm' :: d.data).take
        nm.data.length⟩
    let uomStr : String := ⟨(nm.data ++ '.' :: 'u' :: 'o' :: 'm' :: d.data).drop
        (nm.data.length + 4)⟩
    match atoi uomStr with
    | none => (nm ++ ".uom" ++ d, UOM.unknown)
    | some unit => (namePrefix, UOM.code unit)) = (nm, UOM.code ((digitsVal d.data : Int)))
  rw [htake, hdrop]
  show (match atoi ⟨d.data⟩ with
    | none => (nm ++ ".uom" ++ d, UOM.unknown)
    | some unit => ((⟨nm.data⟩ : String), UOM.code unit)) = (nm, UOM.code ((digitsVal d.data : Int)))
  rw [show atoi ⟨d.data⟩ = atoiChars d.data from rfl]
  rw [atoiChars_digits d.data hne hdig hb]

/-- The per-key decoder on a key containing no `".uom"` at all: the full
key with the unknown unit. -/
theorem makeCommandParamKey_no_uom (k : String) (hno : containsSub k.data uomNeedle = false) :
    makeCommandParamKey k = (k, UOM.unknown) := by
  unfold makeCommandParamKey
  cases h : firstIndexOf k.data ".uom".data with
  | none => rfl
  | some v =>
    exfalso
    unfold containsSub at hno
    rw [show (".uom" : String).data = uomNeedle from rfl] at h
    rw [h] at hno
    exact Bool.noConfusion hno

/-! ## Provenance and uniqueness of decoded parameters -/

/-- Every entry produced by the parameter-decoding fold either comes from
the initial accumulator or originates from a query key other than
`requestId` with at least one value, carrying that key's first value and
the decoded name/unit. -/
theorem foldl_params_sourced :
    ∀ (q : Query) (acc : List (String × CommandParam)) (x : String × CommandParam),
      x ∈ q.foldl
          (fun ret kv =>
            if kv.1 = "requestId" then ret
            else
              match kv.2 with
              | [] => ret
              | v :: _ =>
                let nu := makeCommandParamKey kv.1
                mapSet ret nu.1 ⟨v, nu.2⟩)
          acc →
      x ∈ acc ∨ ∃ kv, kv ∈ q ∧ kv.1 ≠ "requestId" ∧ ∃ v vs, kv.2 = v :: vs ∧
        x = ((makeCommandParamKey kv.1).1, ⟨v, (makeCommandParamKey kv.1).2⟩) := by
  intro q
  induction q with
  | nil => exact fun acc x hx => Or.inl hx
  | cons kv rest ih =>
    intro acc x hx
    rw [List.foldl_cons] at hx
    by_cases hrid : kv.1 = "requestId"
    · rw [if_pos hrid] at hx
      rcases ih _ _ hx with h | ⟨kv', hmem, h⟩
      · exact Or.inl h
      · exact Or.inr ⟨kv', List.mem_cons_of_mem _ hmem, h⟩
    · rw [if_neg hrid] at hx
      cases hv : kv.2 with
      | nil =>
        rw [hv] at hx
        rcases ih _ _ hx with h | ⟨kv', hmem, h⟩
        · exact Or.inl h
        · exact Or.inr ⟨kv', List.mem_cons_of_mem _ hmem, h⟩
      | cons v vs =>
        rw [hv] at hx
        rcases ih _ _ hx with h | ⟨kv', hmem, h⟩
        · unfold mapSet at h
          rcases List.mem_append.mp h with hf | hx1
          · exact Or.inl (List.mem_of_mem_filter hf)
          · refine Or.inr ⟨kv, List.mem_cons_self _ _, hrid, v, vs, hv, ?_⟩
            rcases List.mem_singleton.mp hx1 with rfl
            rfl
        · exact Or.inr ⟨kv', List.mem_cons_of_mem _ hmem, h⟩

/-- Provenance for `makeCommandParams` itself. -/
theorem makeCommandParams_sourced (q : Query) (x : String × CommandParam)
    (hx : x ∈ makeCommandParams q) :
    ∃ kv, kv ∈ q ∧ kv.1 ≠ "requestId" ∧ ∃ v vs, kv.2 = v :: vs ∧
      x = ((makeCommandParamKey kv.1).1, ⟨v, (makeCommandParamKey kv.1).2⟩) := by
  rcases foldl_params_sourced q [] x hx with h | h
  · exact absurd h (List.not_mem_nil x)
  · exact h

/-- A successful `mapGet` exhibits a member of the map. -/
theorem mapGet_some_mem {m : List (String × CommandParam)} {n : String} {p : CommandParam}
    (h : mapGet m n = some p) : (n, p) ∈ m := by
  unfold mapGet at h
  cases hf : m.find? (fun kv => kv.1 == n) with
  | none => rw [hf] at h; exact Option.noConfusion h
  | some kv =>
    rw [hf] at h
    have hmem := List.mem_of_find?_eq_some hf
    have hkey : kv.1 = n := by
      have := List.find?_some hf
      exact beq_iff_eq.mp this
    have hval : kv.2 = p := Option.some.inj h
    obtain ⟨k1, k2⟩ := kv
    cases hkey
    cases hval
    exact hmem

/-- `mapSet` preserves distinctness of the map's keys. -/
theorem mapSet_keys_nodup {m : List (String × CommandParam)} (n : String) (p : CommandParam)
    (h : (m.map Prod.fst).Nodup) : ((mapSet m n p).map Prod.fst).Nodup := by
  unfold mapSet
  rw [List.map_append]
  apply List.Nodup.append
  · exact h.sublist (List.Sublist.map Prod.fst (List.filter_sublist m))
  · simp
  · intro a ha hb
    rcases List.mem_map.mp ha with ⟨kv, hkv, rfl⟩
    have hne : kv.1 ≠ n := of_decide_eq_true (List.mem_filter.mp hkv).2
    have : kv.1 = n := by simpa using hb
    exact hne this

/-- All names in a decoded parameter map are distinct: the fold only ever
extends the accumulator through `mapSet`. -/
theorem foldl_params_keys_nodup :
    ∀ (q : Query) (acc : List (String × CommandParam)), (acc.map Prod.fst).Nodup →
      ((q.foldl
          (fun ret kv =>
            if kv.1 = "requestId" then ret
            else
              match kv.2 with
              | [] => ret
              | v :: _ =>
                let nu := makeCommandParamKey kv.1
                mapSet ret nu.1 ⟨v, nu.2⟩)
          acc).map Prod.fst).Nodup := by
  intro q
  induction q with
  | nil => exact fun acc h => h
  | cons kv rest ih =>
    intro acc hacc
    rw [List.foldl_cons]
    by_cases hrid : kv.1 = "requestId"
    · rw [if_pos hrid]; exact ih _ hacc
    · rw [if_neg hrid]
      cases hv : kv.2 with
      | nil => exact ih _ hacc
      | cons v vs => exact ih _ (mapSet_keys_nodup _ _ hacc)

/-- The decoded parameter map binds each name at most once. -/
theorem makeCommandParams_keys_nodup (q : Query) :
    ((makeCommandParams q).map Prod.fst).Nodup :=
  foldl_params_keys_nodup q [] (by simp)

/-! ## Handler unfolding lemmas -/

/-- A request with no (or malformed) Basic Auth is rejected. -/
theorem handler_no_auth {H : Type} [DecidableEq H] (hash : String → H) (s : ServerModel H)
    (r : HTTPReq) (h : r.basicAuth = none) :
    handler hash s r = [HEvent.wroteError 401 "Unauthorized"] := by
  unfold handler
  rw [h]

/-- A request with the wrong username is rejected. -/
theorem handler_bad_user {H : Type} [DecidableEq H] (hash : String → H) (s : ServerModel H)
    (r : HTTPReq) (u p : String) (h : r.basicAuth = some (u, p)) (hu : u ≠ s.username) :
    handler hash s r = [HEvent.wroteError 401 "Unauthorized"] := by
  unfold handler
  rw [h]
  dsimp only
  rw [if_pos hu]

/-- A request whose password digest does not match is rejected. -/
theorem handler_bad_pass {H : Type} [DecidableEq H] (hash : String → H) (s : ServerModel H)
    (r : HTTPReq) (u p : String) (h : r.basicAuth = some (u, p)) (hu : u = s.username)
    (hp : hash p ≠ s.passwordSHA256) :
    handler hash s r = [HEvent.wroteError 401 "Unauthorized"] := by
  unfold handler
  rw [h]
  dsimp only
  rw [if_neg (fun hne => hne hu), if_pos hp]

/-- For an authenticated request the handler is routing followed by
decoding, with `404` on either failure and the acknowledged send on
success. -/
theorem handler_authed {H : Type} [DecidableEq H] (hash : String → H) (s : ServerModel H)
    (r : HTTPReq) (u p : String) (h : r.basicAuth = some (u, p)) (hu : u = s.username)
    (hp : hash p = s.passwordSHA256) :
    handler hash s r =
      match routerMatch routesNS (splitPath r.path) with
      | none => [HEvent.wroteError 404 "Not Found"]
      | some (name, vars) =>
        match decodeRoute s r.query name vars with
        | none => [HEvent.wroteError 404 "Not Found"]
        | some req => [HEvent.wroteHeader 204, HEvent.chanSend req] := by
  unfold handler
  rw [h]
  dsimp only
  rw [if_neg (fun hne => hne hu), if_neg (fun hne => hne hp)]

/-! ## Claim theorems -/

/-- C6: address round-trip — for every address string `x` and every fixed
profile prefix, `fromWire (toWire x) = x`, where `formatAddr` (the
`toWire` of `Server`/`nsClient`) prepends the profile prefix and
`parseAddr` (the `fromWire`) strips it. -/
theorem C6_address_roundtrip (pre x : String) : parseAddr pre (formatAddr pre x) = x := by
  unfold formatAddr parseAddr
  rw [String.data_append]
  rw [if_pos (List.isPrefixOf_iff_prefix.mpr (List.prefix_append _ _))]
  rw [List.drop_left]

/-- C7: fail-safe translation — for every input string on which the
expected profile prefix is absent, `parseAddr` (the `fromWire` of both
`Server` and `nsClient`) returns the value unchanged rather than failing,
for every configured prefix. -/
theorem C7_parse_addr_failsafe (pre given : String) (h : ¬ pre.data <+: given.data) :
    parseAddr pre given = given := by
  unfold parseAddr
  rw [if_neg (fun hb => h (List.isPrefixOf_iff_prefix.mp hb))]

/-- Witness for C7 at the concrete prefix `"n001_"` and address `"AA"`. -/
theorem C7_parse_addr_failsafe_witness :
    ¬ ("n001_" : String).data <+: ("AA" : String).data ∧ parseAddr "n001_" "AA" = "AA" :=
  ⟨by decide, C7_parse_addr_failsafe "n001_" "AA" (by decide)⟩

/-- C1 (counterexample): the claim's unit-parsing rule, as stated, is
false of `makeCommandParams`.  The key `"level.uom-2"` is not of the form
`<name>.uom<digits>` (the suffix `"-2"` is not a digit sequence), so per
the claim it must decode to a parameter named `"level.uom-2"` with the
unknown unit; the code instead parses the suffix with `strconv.Atoi`,
accepting the sign, and yields a parameter named `"level"` with unit
`-2`. -/
theorem C1_counterexample : ¬ C1Claim := by
  intro h
  have hk := h [("level.uom-2", ["50"])] ("level.uom-2", ["50"])
      (List.mem_singleton.mpr rfl) (by decide) (by decide)
  revert hk
  decide

/-- C1 (amended): query decoding splits each key at the first occurrence
of `".uom"` and parses the remainder with `strconv.Atoi` (so an
optionally signed decimal in the 64-bit range); on success the parameter
is named by the prefix with the parsed integer as unit, and a key whose
remainder is a plain digit sequence in range behaves exactly as the claim
says; a key with no `".uom"` occurrence yields the unknown unit under the
full key; the key `requestId` never contributes a parameter and becomes
the correlation id; keys with no values are skipped; and the claim's
concrete example decodes exactly as stated. -/
theorem C1_unit_parsing_amended :
    (makeCommandParams [("level.uom2", ["50"]), ("mode", ["auto"]), ("requestId", ["r1"])] =
        [("level", ⟨"50", UOM.code 2⟩), ("mode", ⟨"auto", UOM.unknown⟩)] ∧
      makeCommonReqID [("level.uom2", ["50"]), ("mode", ["auto"]), ("requestId", ["r1"])] =
        "r1" ∧
      mapGet (makeCommandParams [("level.uom2", ["50"]), ("mode", ["auto"]),
        ("requestId", ["r1"])]) "requestId" = none) ∧
    (∀ nm d : String, containsSub nm.data uomNeedle = false → d.data ≠ [] →
      d.data.all Char.isDigit = true → digitsVal d.data ≤ 2 ^ 63 - 1 →
      makeCommandParamKey (nm ++ ".uom" ++ d) = (nm, UOM.code ((digitsVal d.data : Int)))) ∧
    (∀ k : String, containsSub k.data uomNeedle = false →
      makeCommandParamKey k = (k, UOM.unknown)) ∧
    makeCommandParamKey "level.uom-2" = ("level", UOM.code (-2)) ∧
    (∀ (q : Query) (x : String × CommandParam), x ∈ makeCommandParams q →
      ∃ kv, kv ∈ q ∧ kv.1 ≠ "requestId" ∧ ∃ v vs, kv.2 = v :: vs ∧
        x = ((makeCommandParamKey kv.1).1, ⟨v, (makeCommandParamKey kv.1).2⟩)) :=
  ⟨⟨by decide, by decide, by decide⟩, makeCommandParamKey_uom_suffix,
    makeCommandParamKey_no_uom, by decide, makeCommandParams_sourced⟩

/-- Witness for C1's amended rule at the concrete key `"level" ++ ".uom"
++ "2"`. -/
theorem C1_unit_parsing_amended_witness :
    makeCommandParamKey ("level" ++ ".uom" ++ "2") = ("level", UOM.code 2) := by
  have h := C1_unit_parsing_amended.2.1 "level" "2" (by decide) (by decide) (by decide)
      (by decide)
  simpa using h

/-- C10: in command-parameter decoding only the first value of a key is
used (every delivered parameter's value is the first value of the query
key it originates from), the decoded map binds each name at most once,
and for the colliding keys `level=1` and `level.uom2=50` exactly one
parameter named `level` survives, in either processing order. -/
theorem C10_first_value_and_uniqueness :
    (∀ (q : Query) (n : String) (p : CommandParam),
      mapGet (makeCommandParams q) n = some p →
      ∃ kv, kv ∈ q ∧ ∃ v vs, kv.2 = v :: vs ∧ p.Value = v ∧
        n = (makeCommandParamKey kv.1).1 ∧ p.uom = (makeCommandParamKey kv.1).2) ∧
    (∀ q : Query, ((makeCommandParams q).map Prod.fst).Nodup) ∧
    ((makeCommandParams [("level", ["1"]), ("level.uom2", ["50"])]).countP
        (fun kv => kv.1 == "level") = 1 ∧
      (makeCommandParams [("level.uom2", ["50"]), ("level", ["1"])]).countP
        (fun kv => kv.1 == "level") = 1) := by
  refine ⟨?_, makeCommandParams_keys_nodup, by decide, by decide⟩
  intro q n p h
  rcases makeCommandParams_sourced q _ (mapGet_some_mem h) with ⟨kv, hkv, -, v, vs, hv, hx⟩
  have h1 : n = (makeCommandParamKey kv.1).1 := congrArg Prod.fst hx
  have h2 : p = ⟨v, (makeCommandParamKey kv.1).2⟩ := congrArg Prod.snd hx
  exact ⟨kv, hkv, v, vs, hv, by rw [h2], h1, by rw [h2]⟩

/-- Witness for C10's first-value rule: a key with two values delivers
its first value. -/
theorem C10_first_value_witness :
    ∃ kv, kv ∈ ([("level", ["1", "9"])] : Query) ∧ ∃ v vs, kv.2 = v :: vs ∧
      (⟨"1", UOM.unknown⟩ : CommandParam).Value = v ∧
      "level" = (makeCommandParamKey kv.1).1 ∧
      (⟨"1", UOM.unknown⟩ : CommandParam).uom = (makeCommandParamKey kv.1).2 :=
  C10_first_value_and_uniqueness.1 [("level", ["1", "9"])] "level" ⟨"1", UOM.unknown⟩
    (by decide)

/-- C2 (counterexample): the claimed path `/nodes/n001_AA/cmd/DON/100/51`
is not recognized by the namespacing server of `src/unnamed/part_002`
(whose routes live under `/ns/`) — an authenticated GET of it yields
`404 Not Found` and no Command request; and the `src/isyns/server.go`
variant, which does match that path, delivers the address still carrying
the `n001_` prefix rather than the claimed unprefixed `"AA"`. -/
theorem C2_counterexample :
    handler id demoServer
        { basicAuth := some ("isy", "secret"), path := "/nodes/n001_AA/cmd/DON/100/51",
          query := [] } = [HEvent.wroteError 404 "Not Found"] ∧
    handlerPlain id demoServer
        { basicAuth := some ("isy", "secret"), path := "/nodes/n001_AA/cmd/DON/100/51",
          query := [] } =
      [HEvent.wroteHeader 204,
        HEvent.chanSend
          (RequestVal.command ⟨""⟩ "n001_AA" "DON" (some ⟨"100", UOM.code 51⟩) [])] :=
  ⟨by decide, by decide⟩

/-- C2 (amended): for a server configured with profile prefix `n001_`, an
authenticated GET of the `/ns/`-prefixed path
`/ns/nodes/n001_AA/cmd/DON/100/51` is recognized and decoded into a
Command request whose node address is the unprefixed `"AA"`, whose
command is `"DON"`, and whose primary parameter has value `"100"` and
unit-of-measure 51. -/
theorem C2_path_decoding_amended {H : Type} [DecidableEq H] (hash : String → H)
    (s : ServerModel H) (u p : String) (q : Query)
    (hpre : s.addrPrefix = "n001_") (hu : u = s.username)
    (hp : hash p = s.passwordSHA256) :
    handler hash s
        { basicAuth := some (u, p), path := "/ns/nodes/n001_AA/cmd/DON/100/51", query := q } =
      [HEvent.wroteHeader 204,
        HEvent.chanSend (RequestVal.command ⟨makeCommonReqID q⟩ "AA" "DON"
          (some ⟨"100", UOM.code 51⟩) (makeCommandParams q))] := by
  rw [handler_authed hash s _ u p rfl hu hp]
  rw [show routerMatch routesNS (splitPath "/ns/nodes/n001_AA/cmd/DON/100/51") =
      some (RouteName.nodeCommandValueUnit,
        [("nodeAddr", "n001_AA"), ("command", "DON"), ("value", "100"), ("unit", "51")])
    from by decide]
  dsimp only
  unfold decodeRoute
  dsimp only
  rw [show atoi (varGet
      [("nodeAddr", "n001_AA"), ("command", "DON"), ("value", "100"), ("unit", "51")]
      "unit") = some 51 from by decide]
  rw [hpre]
  rw [show parseAddr "n001_" (varGet
      [("nodeAddr", "n001_AA"), ("command", "DON"), ("value", "100"), ("unit", "51")]
      "nodeAddr") = "AA" from by decide]
  rw [show varGet
      [("nodeAddr", "n001_AA"), ("command", "DON"), ("value", "100"), ("unit", "51")]
      "command" = "DON" from by decide]
  rw [show varGet
      [("nodeAddr", "n001_AA"), ("command", "DON"), ("value", "100"), ("unit", "51")]
      "value" = "100" from by decide]

/-- Witness for C2's amended statement at a concrete server and call. -/
theorem C2_path_decoding_amended_witness :
    handler id demoServer
        { basicAuth := some ("isy", "secret"), path := "/ns/nodes/n001_AA/cmd/DON/100/51",
          query := [] } =
      [HEvent.wroteHeader 204,
        HEvent.chanSend
          (RequestVal.command ⟨""⟩ "AA" "DON" (some ⟨"100", UOM.code 51⟩) [])] :=
  C2_path_decoding_amended id demoServer "isy" "secret" [] rfl rfl rfl

/-- C5: for every authenticated inbound call matching the three-segment
`cmd` route shape whose third path segment (the unit) fails to parse as
an integer, the entire request is discarded — the caller receives
`404 Not Found` and nothing is sent to the consumer; in particular the
paths `/nodes/n001_AA/cmd/DON/100/abc` and
`/ns/nodes/n001_AA/cmd/DON/100/abc` both yield `404` and deliver
nothing. -/
theorem C5_bad_unit_discarded :
    (∀ {H : Type} [inst : DecidableEq H] (hash : String → H) (s : ServerModel H)
      (r : HTTPReq) (u p : String) (vars : Vars),
      r.basicAuth = some (u, p) → u = s.username → hash p = s.passwordSHA256 →
      routerMatch routesNS (splitPath r.path) = some (RouteName.nodeCommandValueUnit, vars) →
      atoi (varGet vars "unit") = none →
      handler hash s r = [HEvent.wroteError 404 "Not Found"] ∧
        sendCount (handler hash s r) = 0) ∧
    handler id demoServer
        { basicAuth := some ("isy", "secret"), path := "/ns/nodes/n001_AA/cmd/DON/100/abc",
          query := [] } = [HEvent.wroteError 404 "Not Found"] ∧
    handler id demoServer
        { basicAuth := some ("isy", "secret"), path := "/nodes/n001_AA/cmd/DON/100/abc",
          query := [] } = [HEvent.wroteError 404 "Not Found"] := by
  refine ⟨?_, by decide, by decide⟩
  intro H inst hash s r u p vars hauth hu hp hroute hatoi
  have hh : handler hash s r = [HEvent.wroteError 404 "Not Found"] := by
    rw [handler_authed hash s r u p hauth hu hp, hroute]
    dsimp only
    unfold decodeRoute
    dsimp only
    rw [hatoi]
  exact ⟨hh, by rw [hh]; rfl⟩

/-- Witness for C5 at the concrete malformed-unit path. -/
theorem C5_bad_unit_discarded_witness :
    handler id demoServer
        { basicAuth := some ("isy", "secret"), path := "/ns/nodes/n001_AA/cmd/DON/100/abc",
          query := [] } = [HEvent.wroteError 404 "Not Found"] ∧
    sendCount (handler id demoServer
        { basicAuth := some ("isy", "secret"), path := "/ns/nodes/n001_AA/cmd/DON/100/abc",
          query := [] }) = 0 :=
  C5_bad_unit_discarded.1 id demoServer
    { basicAuth := some ("isy", "secret"), path := "/ns/nodes/n001_AA/cmd/DON/100/abc",
      query := [] }
    "isy" "secret"
    [("nodeAddr", "n001_AA"), ("command", "DON"), ("value", "100"), ("unit", "abc")]
    rfl rfl rfl (by decide) (by decide)

/-- C9: every call with mismatched credentials — missing or malformed
auth header, wrong username, or wrong password (under an injective
digest) — is rejected with the identical `401 Unauthorized` response,
regardless of the path (so before routing) and with nothing sent to the
consumer; for matching credentials and a recognized, decodable route
exactly one request is sent to the consumer. -/
theorem C9_auth_gate :
    (∀ {H : Type} [inst : DecidableEq H] (hash : String → H) (s : ServerModel H)
      (r : HTTPReq), r.basicAuth = none →
      handler hash s r = [HEvent.wroteError 401 "Unauthorized"] ∧
        sendCount (handler hash s r) = 0) ∧
    (∀ {H : Type} [inst : DecidableEq H] (hash : String → H) (s : ServerModel H)
      (r : HTTPReq) (u p : String), r.basicAuth = some (u, p) → u ≠ s.username →
      handler hash s r = [HEvent.wroteError 401 "Unauthorized"] ∧
        sendCount (handler hash s r) = 0) ∧
    (∀ {H : Type} [inst : DecidableEq H] (hash : String → H) (s : ServerModel H)
      (r : HTTPReq) (u p pw0 : String), r.basicAuth = some (u, p) →
      Function.Injective hash → s.passwordSHA256 = hash pw0 → p ≠ pw0 →
      handler hash s r = [HEvent.wroteError 401 "Unauthorized"] ∧
        sendCount (handler hash s r) = 0) ∧
    (∀ {H : Type} [inst : DecidableEq H] (hash : String → H) (s : ServerModel H)
      (r : HTTPReq) (u p : String) (name : RouteName) (vars : Vars) (req : RequestVal),
      r.basicAuth = some (u, p) → u = s.username → hash p = s.passwordSHA256 →
      routerMatch routesNS (splitPath r.path) = some (name, vars) →
      decodeRoute s r.query name vars = some req →
      sendCount (handler hash s r) = 1) := by
  refine ⟨?_, ?_, ?_, ?_⟩
  · intro H inst hash s r h
    have hh := handler_no_auth hash s r h
    exact ⟨hh, by rw [hh]; rfl⟩
  · intro H inst hash s r u p h hu
    have hh := handler_bad_user hash s r u p h hu
    exact ⟨hh, by rw [hh]; rfl⟩
  · intro H inst hash s r u p pw0 hauth hinj hsp hne
    by_cases hu : u = s.username
    · have hp : hash p ≠ s.passwordSHA256 := by
        rw [hsp]
        intro h
        exact hne (hinj h)
      have hh := handler_bad_pass hash s r u p hauth hu hp
      exact ⟨hh, by rw [hh]; rfl⟩
    · have hh := handler_bad_user hash s r u p hauth hu
      exact ⟨hh, by rw [hh]; rfl⟩
  · intro H inst hash s r u p name vars req hauth hu hp hroute hdec
    rw [handler_authed hash s r u p hauth hu hp, hroute]
    dsimp only
    rw [hdec]
    rfl

/-- Witness for C9: a wrong password is rejected at a concrete server,
and a correct call delivers exactly one request. -/
theorem C9_auth_gate_witness :
    (handler id demoServer
        { basicAuth := some ("isy", "wrong"), path := "/ns/add/nodes", query := [] } =
        [HEvent.wroteError 401 "Unauthorized"] ∧
      sendCount (handler id demoServer
        { basicAuth := some ("isy", "wrong"), path := "/ns/add/nodes", query := [] }) = 0) ∧
    sendCount (handler id demoServer
      { basicAuth := some ("isy", "secret"), path := "/ns/add/nodes", query := [] }) = 1 :=
  ⟨C9_auth_gate.2.2.1 id demoServer
      { basicAuth := some ("isy", "wrong"), path := "/ns/add/nodes", query := [] }
      "isy" "wrong" "secret" rfl (fun _ _ h => h) rfl (by decide),
    C9_auth_gate.2.2.2 id demoServer
      { basicAuth := some ("isy", "secret"), path := "/ns/add/nodes", query := [] }
      "isy" "secret" RouteName.addAllNodes [] (RequestVal.addAllNodes ⟨""⟩)
      rfl rfl rfl (by decide) (by decide)⟩

/-- C3: for every recognized and decoded request the handler writes the
`204 No Content` acknowledgement strictly before the channel send (the
trace is exactly acknowledgement followed by send); the channel created
by `NewServer` is unbuffered (capacity 0) and is the very channel exposed
as `Requests`; and in the rendezvous semantics of that unbuffered
hand-off, every reachable execution hands each call off at most once,
never before its acknowledgement, exactly once by the time its handler
returns, and each hand-off is the simultaneous receipt by exactly one
consumer. -/
theorem C3_ack_before_rendezvous :
    (∀ {H : Type} [inst : DecidableEq H] (hash : String → H) (s : ServerModel H)
      (r : HTTPReq) (u p : String) (name : RouteName) (vars : Vars) (req : RequestVal),
      r.basicAuth = some (u, p) → u = s.username → hash p = s.passwordSHA256 →
      routerMatch routesNS (splitPath r.path) = some (name, vars) →
      decodeRoute s r.query name vars = some req →
      handler hash s r = [HEvent.wroteHeader 204, HEvent.chanSend req]) ∧
    (newServerRawReqs.capacity = 0 ∧ newServerRequests = newServerRawReqs) ∧
    (∀ st : CState, ReachableC st → ∀ i : Nat,
      st.2.count (TEvent.handoff i) ≤ 1 ∧
      st.2.count (TEvent.handoff i) ≤ st.2.count (TEvent.ack i) ∧
      (st.1 i = HPc.done → st.2.count (TEvent.handoff i) = 1) ∧
      (∀ j k : Nat, st.2[j]? = some (TEvent.handoff i) → st.2[k]? = some (TEvent.ack i) →
        k < j)) := by
  refine ⟨?_, ⟨rfl, rfl⟩, ?_⟩
  · intro H inst hash s r u p name vars req hauth hu hp hroute hdec
    rw [handler_authed hash s r u p hauth hu hp, hroute]
    dsimp only
    rw [hdec]
  · intro st hreach i
    obtain ⟨ha, hh, hord⟩ := cinv_reachable hreach i
    refine ⟨?_, ?_, ?_, hord⟩
    · rw [hh]; cases st.1 i <;> simp [hoCount]
    · rw [ha, hh]; cases st.1 i <;> simp [ackCount, hoCount]
    · intro hdone; rw [hh, hdone]; rfl

/-- Witness for C3 at a concrete call and a concrete two-step
execution. -/
theorem C3_ack_before_rendezvous_witness :
    (handler id demoServer
        { basicAuth := some ("isy", "secret"), path := "/ns/add/nodes", query := [] } =
      [HEvent.wroteHeader 204, HEvent.chanSend (RequestVal.addAllNodes ⟨""⟩)]) ∧
    demoExecState.2.count (TEvent.handoff 0) ≤ 1 ∧
    demoExecState.2.count (TEvent.handoff 0) ≤ demoExecState.2.count (TEvent.ack 0) := by
  have hreach : ReachableC demoExecState := by
    unfold ReachableC demoExecState initCState
    exact Relation.ReflTransGen.tail
      (Relation.ReflTransGen.tail Relation.ReflTransGen.refl
        (HandStep.ack (fun _ => HPc.beforeAck) [] 0 rfl))
      (HandStep.handoff (Function.update (fun _ => HPc.beforeAck) 0 HPc.beforeSend)
        [TEvent.ack 0] 0 (by simp))
  refine ⟨?_, ?_, ?_⟩
  · exact C3_ack_before_rendezvous.1 id demoServer
      { basicAuth := some ("isy", "secret"), path := "/ns/add/nodes", query := [] }
      "isy" "secret" RouteName.addAllNodes [] (RequestVal.addAllNodes ⟨""⟩)
      rfl rfl rfl (by decide) (by decide)
  · exact (C3_ack_before_rendezvous.2.2 demoExecState hreach 0).1
  · exact (C3_ack_before_rendezvous.2.2 demoExecState hreach 0).2.1

/-- C4 (code bug): in the `src/unnamed/part_002` version of
`nsClient.Request` — the one behind `Complete` and `AddNode` — the
`log.Printf` line dereferences the nil response before the transport
error is checked, so a transport failure panics instead of being returned
as an error; the `src/isyns/server.go` version checks the error first and
returns it, matching the claim.  Status codes `>= 400` are returned as
errors, others as success, and `Complete`/`AddNode` issue exactly one
call whose result is `nsClient.Request`'s. -/
theorem C4_outbound_error_code_bug :
    (∀ msg, nsClientRequest (TransportOutcome.failure msg) = CallResult.panics) ∧
    (∀ msg, nsClientRequestPlain (TransportOutcome.failure msg) = CallResult.err msg) ∧
    (∀ (st : Nat) (txt : String), 400 ≤ st →
      nsClientRequest (TransportOutcome.response st txt) = CallResult.err txt) ∧
    (∀ (st : Nat) (txt : String), st < 400 →
      nsClientRequest (TransportOutcome.response st txt) = CallResult.ok) ∧
    (∀ (meta : ReqMeta) (suc : Bool) (o : TransportOutcome), meta.id ≠ "" →
      (requestComplete meta suc o).2 = nsClientRequest o ∧
      (requestComplete meta suc o).1.length = 1) ∧
    (∀ (pre addr defId pa nm : String) (o : TransportOutcome),
      (addNode pre addr defId pa nm o).2 = nsClientRequest o ∧
      (addNode pre addr defId pa nm o).1.length = 1) := by
  refine ⟨fun msg => rfl, fun msg => rfl, ?_, ?_, ?_, ?_⟩
  · intro st txt h
    show (if st ≥ 400 then CallResult.err txt else CallResult.ok) = CallResult.err txt
    rw [if_pos h]
  · intro st txt h
    show (if st ≥ 400 then CallResult.err txt else CallResult.ok) = CallResult.ok
    rw [if_neg (by omega)]
  · intro meta suc o h
    unfold requestComplete reportRequestStatus
    rw [if_neg h]
    exact ⟨rfl, rfl⟩
  · intro pre addr defId pa nm o
    exact ⟨rfl, rfl⟩

/-- Witness for C4 at concrete outcomes. -/
theorem C4_outbound_error_code_bug_witness :
    nsClientRequest (TransportOutcome.failure "connection refused") = CallResult.panics ∧
    nsClientRequest (TransportOutcome.response 404 "404 Not Found") =
      CallResult.err "404 Not Found" ∧
    (requestComplete ⟨"r1"⟩ true (TransportOutcome.response 404 "404 Not Found")).2 =
      nsClientRequest (TransportOutcome.response 404 "404 Not Found") :=
  ⟨C4_outbound_error_code_bug.1 "connection refused",
    C4_outbound_error_code_bug.2.2.1 404 "404 Not Found" (by decide),
    (C4_outbound_error_code_bug.2.2.2.2.1 ⟨"r1"⟩ true
      (TransportOutcome.response 404 "404 Not Found") (by decide)).1⟩

/-- C8 (counterexample): `ReportRequestStatus` itself is not a no-op on
the empty id — it issues one outbound call, whose path collapses to
`report/status/success` because `path.Join` drops the empty segment; the
empty-id guard lives in `request.Complete`, not in
`ReportRequestStatus`. -/
theorem C8_counterexample :
    (reportRequestStatus "" true (TransportOutcome.response 200 "200 OK")).1 =
      ["report/status/success"] ∧
    (reportRequestStatus "" true (TransportOutcome.response 200 "200 OK")).1 ≠ [] :=
  ⟨by decide, by decide⟩

/-- C8 (amended): `ReportRequestStatus(id, success)` issues exactly one
call to `.../report/status/{id}/success` or `.../report/status/{id}/fail`
for every id, including the empty one (whose empty segment is collapsed
by path joining); the empty-id no-op belongs to `Complete`: a Request
with empty correlation id completes without any outbound call and without
error, and one with a nonempty id issues exactly one reporting call. -/
theorem C8_report_status_amended :
    (∀ (id : String) (o : TransportOutcome),
      (reportRequestStatus id true o).1 = [makeURLPath ["report", "status", id, "success"]] ∧
      (reportRequestStatus id false o).1 = [makeURLPath ["report", "status", id, "fail"]] ∧
      (reportRequestStatus id true o).2 = nsClientRequest o) ∧
    (reportRequestStatusPath "r1" true = "report/status/r1/success" ∧
      reportRequestStatusPath "r1" false = "report/status/r1/fail" ∧
      reportRequestStatusPath "" true = "report/status/success") ∧
    (∀ (meta : ReqMeta) (suc : Bool) (o : TransportOutcome),
      (meta.id = "" → requestComplete meta suc o = ([], CallResult.ok)) ∧
      (meta.id ≠ "" →
        (requestComplete meta suc o).1 = [reportRequestStatusPath meta.id suc] ∧
        (requestComplete meta suc o).1.length = 1)) := by
  refine ⟨?_, ⟨by decide, by decide, by decide⟩, ?_⟩
  · intro id o
    exact ⟨rfl, rfl, rfl⟩
  · intro meta suc o
    constructor
    · intro h
      unfold requestComplete
      rw [if_pos h]
    · intro h
      unfold requestComplete reportRequestStatus
      rw [if_neg h]
      exact ⟨rfl, rfl⟩

/-- Witness for C8's amended statement at empty and nonempty ids. -/
theorem C8_report_status_amended_witness :
    requestComplete ⟨""⟩ true (TransportOutcome.response 200 "200 OK") =
      ([], CallResult.ok) ∧
    (requestComplete ⟨"r1"⟩ true (TransportOutcome.response 200 "200 OK")).1 =
      [reportRequestStatusPath "r1" true] :=
  ⟨(C8_report_status_amended.2.2 ⟨""⟩ true (TransportOutcome.response 200 "200 OK")).1 rfl,
    ((C8_report_status_amended.2.2 ⟨"r1"⟩ true
      (TransportOutcome.response 200 "200 OK")).2 (by decide)).1⟩

end GoIsy
